import Mathlib

/-!
Verification of the mutation-plus-broadcast pipeline of the `action`
repository: a shallow embedding of the archiveTeam, AddGitHubRepo and
inviteTeamMembers GraphQL mutation resolvers over an explicit document
store, together with theorems about the claims of the specification.

The document store (RethinkDB tables Team, TeamMember, User, Project,
Notification, Provider and the GitHub integration table) is modelled as
lists of records; a resolver is a function from the mutation context and
the store to the mutated store, the list of pub/sub events published
during the request, and an outcome (a returned payload, a structured
error payload, or a thrown error).
-/

namespace Action

/-! ## Constants (universal/utils/constants) -/

def TEAM_ARCHIVED : String := "TEAM_ARCHIVED"

def REJOIN_TEAM : String := "REJOIN_TEAM"

def ADDED : String := "ADDED"

def UPDATED : String := "UPDATED"

/-- The `TEAM` topic constant. -/
def TEAM : String := "team"

def TEAM_MEMBER : String := "teamMember"

def NOTIFICATIONS_ADDED : String := "notificationsAdded"

def NEW_AUTH_TOKEN : String := "newAuthToken"

/-- The `GITHUB` constant, naming both the provider service and the
integration table. -/
def GITHUB : String := "GitHubIntegration"

/-! ## Document store rows -/

structure Team where
  id : String
  name : String
  orgId : String
  isArchived : Bool
deriving Repr, DecidableEq

structure TeamMember where
  id : String
  teamId : String
  userId : String
  preferredName : String
  isNotRemoved : Bool
  isLead : Bool
deriving Repr, DecidableEq

structure User where
  id : String
  email : String
  tms : List String
deriving Repr, DecidableEq

structure Project where
  id : String
  teamId : String
deriving Repr, DecidableEq

structure Notification where
  id : String
  orgId : String
  startAt : Nat
  type : String
  userIds : List String
  teamName : String
deriving Repr, DecidableEq

structure Provider where
  id : String
  teamId : String
  userId : String
  service : String
  isActive : Bool
  accessToken : String
deriving Repr, DecidableEq

/-- A row of the GitHub integration table. -/
structure GitHubIntegration where
  id : String
  adminUserId : String
  createdAt : Nat
  updatedAt : Nat
  isActive : Bool
  nameWithOwner : String
  teamId : String
  userIds : List String
deriving Repr, DecidableEq

/-- The document store: one list per table. -/
structure Store where
  teams : List Team
  teamMembers : List TeamMember
  users : List User
  projects : List Project
  notifications : List Notification
  providers : List Provider
  githubRepos : List GitHubIntegration
deriving Repr, DecidableEq

/-! ## Pub/sub events -/

/-- The payload variants published on the pub/sub layer.  Field lists
mirror the object literals at the publish sites. -/
inductive EventData where
  /-- `{notificationsAdded: {notifications: [...]}}` -/
  | notificationsAdded (notifications : List Notification)
  /-- `{data: {teamId, type}}` on the `TEAM.<teamId>` topic -/
  | teamUpdated (teamId : String) (type : String)
  /-- `{newAuthToken: tmsSignToken({sub}, tms)}` -/
  | newAuthToken (sub : String) (tms : List String)
  /-- `{githubRepoAdded: {repo}}` -/
  | githubRepoAdded (repo : GitHubIntegration) (userIds : List String)
    (teamMembers : List String)
  /-- `{data: {teamMemberId, notification: {type: notifType, ...}, type}}` -/
  | teamMemberAdded (teamMemberId : String) (notifType : String) (type : String)
  /-- `{data: {teamId, notificationId, type}}` on the `TEAM.<userId>` topic -/
  | teamNotified (teamId : String) (notificationId : String) (type : String)
deriving Repr, DecidableEq

/-- One `getPubSub().publish(topic, payload)` call.  `operationId` and
`mutatorId` are `none` exactly when the publish site's payload literal
carries no such key. -/
structure PubEvent where
  topic : String
  data : EventData
  operationId : Option Nat
  mutatorId : Option String
deriving Repr, DecidableEq

/-! ## Authorization helpers -/

/-- The decoded auth token: subject (user id) and team ids. -/
structure AuthToken where
  sub : String
  tms : List String
deriving Repr, DecidableEq

def getUserId (authToken : AuthToken) : String := authToken.sub

/-- Modelled from the spec: `isTeamMember` (authorization helper, not
under src/) is the team-membership predicate derived from the decoded
caller token. -/
def isTeamMember (authToken : AuthToken) (teamId : String) : Bool :=
  authToken.tms.contains teamId

/-- Modelled from the spec: `toTeamMemberId` (relay helper, not under
src/) composes the TeamMember primary key from the user id and team id. -/
def toTeamMemberId (teamId : String) (userId : String) : String :=
  userId ++ "::" ++ teamId

/-- Modelled from the spec: `fromTeamMemberId` (relay helper, not under
src/) recovers the user id from a TeamMember primary key. -/
def fromTeamMemberId (teamMemberId : String) : String :=
  (teamMemberId.splitOn "::").headD ""

/-- Modelled from the spec: `requireTeamLead` (authorization helper, not
under src/) is the team-lead-only predicate; the resolver raises an
authorization error when it is false. -/
def isTeamLead (s : Store) (teamMemberId : String) : Bool :=
  s.teamMembers.any fun tm => tm.id == teamMemberId && tm.isLead && tm.isNotRemoved

/-! ## Resolver plumbing -/

/-- Per-request mutation context: decoded token, the correlation id
produced by `dataLoader.share()`, and the originating socket id. -/
structure MutationContext where
  authToken : AuthToken
  operationId : Nat
  mutatorId : String
deriving Repr, DecidableEq

/-- The `{operationId, mutatorId}` pair spread into live-update payloads. -/
structure SubOptions where
  operationId : Nat
  mutatorId : String
deriving Repr, DecidableEq

/-- How a resolver call ends: a thrown error (fatal request failure) or a
returned payload. -/
inductive ResolveOutcome (α : Type) where
  | thrown (msg : String)
  | payload (val : α)
deriving Repr, DecidableEq

/-- The observable effect of one resolver call: final store, published
events in order, and the outcome. -/
structure ResolverResult (α : Type) where
  store : Store
  events : List PubEvent
  outcome : ResolveOutcome α
deriving Repr, DecidableEq

/-! ## archiveTeam (src/server/graphql/mutations/archiveTeam.js) -/

/-- `publishAuthTokensWithoutTeam`: one `NEW_AUTH_TOKEN.<userId>` publish
per updated user doc, whose payload is only `{newAuthToken}`. -/
def publishAuthTokensWithoutTeam (userDocs : List User) : List PubEvent :=
  userDocs.map fun user =>
    { topic := NEW_AUTH_TOKEN ++ "." ++ user.id
      data := EventData.newAuthToken user.id user.tms
      operationId := none
      mutatorId := none }

/-- `publishTeamArchivedNotifications(notifications, subOptions)`: one
`NOTIFICATIONS_ADDED.<userId>` publish per notification, spreading
`subOptions` into the payload.  The call site in `archiveTeam.resolve`
passes no second argument, i.e. `subOptions = none`. -/
def publishTeamArchivedNotifications (notifications : List Notification)
    (subOptions : Option SubOptions) : List PubEvent :=
  notifications.map fun notification =>
    { topic := NOTIFICATIONS_ADDED ++ "." ++ notification.userIds.headD ""
      data := EventData.notificationsAdded [notification]
      operationId := subOptions.map SubOptions.operationId
      mutatorId := subOptions.map SubOptions.mutatorId }

/-- The count of Project rows with the given teamId, as computed inside
the archiveTeam query. -/
def projectCount (s : Store) (teamId : String) : Nat :=
  (s.projects.filter fun p => p.teamId == teamId).length

/-- The userIds of the non-removed TeamMember rows of the team, as
computed inside the archiveTeam query. -/
def activeMemberUserIds (s : Store) (teamId : String) : List String :=
  (s.teamMembers.filter fun tm => tm.teamId == teamId && tm.isNotRemoved).map
    TeamMember.userId

/-- The payload type of archiveTeam (`UpdateTeamPayload`). -/
structure TeamUpdatedPayload where
  team : Team
deriving Repr, DecidableEq

/-- `archiveTeam.resolve`.  `now` stands for `new Date()` and `genId` for
`shortid.generate()` (one fresh id per notification index).  The model
follows the resolver step by step: `requireTeamLead`, the single
conditional read-modify-write (project count, active member userIds,
removal of the team from every member's `tms`, then the branch between
hard delete and soft archive), the notification insert and publishes of
the soft branch, the `Team was already archived` throw when the update
changed nothing, and the final `TEAM.<teamId>` and `NEW_AUTH_TOKEN`
publishes. -/
def archiveTeam (ctx : MutationContext) (now : Nat) (genId : Nat → String)
    (teamId : String) (s : Store) : ResolverResult TeamUpdatedPayload :=
  let operationId := ctx.operationId
  let mutatorId := ctx.mutatorId
  let userId := getUserId ctx.authToken
  let teamMemberId := toTeamMemberId teamId userId
  if isTeamLead s teamMemberId then
    match s.teams.find? fun t => t.id == teamId with
    | none =>
      -- `.get(teamId).pluck(...)` errors on a missing document
      { store := s, events := [], outcome := ResolveOutcome.thrown "store error" }
    | some team =>
      let pc := projectCount s teamId
      let userIds := activeMemberUserIds s teamId
      -- update User.tms for every affected user (difference with [teamId])
      let users1 := s.users.map fun u =>
        if userIds.contains u.id then
          { u with tms := u.tms.filter fun t => !(t == teamId) }
        else u
      -- returnChanges only reports docs whose tms actually changed
      let userDocs :=
        (s.users.filter fun u => userIds.contains u.id && u.tms.contains teamId).map
          fun u => { u with tms := u.tms.filter fun t => !(t == teamId) }
      if pc == 0 && userIds.length == 1 then
        -- Team has no projects nor addn'l TeamMembers, hard delete it
        let s1 : Store := { s with
          teams := s.teams.filter fun t => !(t.id == teamId)
          teamMembers := s.teamMembers.filter fun tm => !(tm.teamId == teamId)
          users := users1 }
        let team1 := { team with isArchived := true }
        let events :=
          { topic := TEAM ++ "." ++ teamId
            data := EventData.teamUpdated teamId UPDATED
            operationId := some operationId
            mutatorId := some mutatorId } :: publishAuthTokensWithoutTeam userDocs
        { store := s1, events := events
          outcome := ResolveOutcome.payload { team := team1 } }
      else
        -- soft archive: update isArchived; no change when already archived
        let teamResult : Option Team :=
          if team.isArchived then none else some { team with isArchived := true }
        let s1 : Store := { s with
          teams := s.teams.map fun t =>
            if t.id == teamId then { t with isArchived := true } else t
          users := users1 }
        let notifications := userIds.enum.map fun pair =>
          { id := genId pair.fst
            orgId := team.orgId
            startAt := now
            type := TEAM_ARCHIVED
            userIds := [pair.snd]
            teamName := team.name : Notification }
        let s2 := { s1 with notifications := s1.notifications ++ notifications }
        let notifEvents := publishTeamArchivedNotifications notifications none
        match teamResult with
        | none =>
          { store := s2, events := notifEvents
            outcome := ResolveOutcome.thrown "Team was already archived" }
        | some tr =>
          let team1 := { tr with isArchived := true }
          let events := notifEvents ++
            ({ topic := TEAM ++ "." ++ teamId
               data := EventData.teamUpdated teamId UPDATED
               operationId := some operationId
               mutatorId := some mutatorId } :: publishAuthTokensWithoutTeam userDocs)
          { store := s2, events := events
            outcome := ResolveOutcome.payload { team := team1 } }
  else
    -- requireTeamLead raises before any store access
    { store := s, events := [], outcome := ResolveOutcome.thrown "Unauthorized" }

/-! ## AddGitHubRepo (src/unnamed/part_001) -/

/-- The repository fields of the `tokenCanAccessRepo` GraphQL response. -/
structure GitHubRepoInfo where
  viewerCanAdminister : Bool
  databaseId : Nat
deriving Repr, DecidableEq

/-- The shape of the `tokenCanAccessRepo` response as the resolver reads
it: an `errors` flag and the (possibly absent) `repository` object.  The
external call itself is outside the store, so the response is an input of
the resolver. -/
structure GitHubPermissions where
  errors : Bool
  repository : Option GitHubRepoInfo
deriving Repr, DecidableEq

/-- The endpoint hit by `createRepoWebhook`. -/
def createRepoWebhookEndpoint (nameWithOwner : String) : String :=
  "https://api.github.com/repos/" ++ nameWithOwner ++ "/hooks"

/-- The endpoint hit by `createOrgWebhook` (the owner part of
`nameWithOwner`). -/
def createOrgWebhookEndpoint (nameWithOwner : String) : String :=
  "https://api.github.com/orgs/" ++ (nameWithOwner.splitOn "/").headD "" ++ "/hooks"

/-- How an `AddGitHubRepo` call ends: a structured error payload built by
`standardError` and returned to the caller, the success payload, or a
thrown (request-fatal) error. -/
inductive AddGitHubRepoOutcome where
  | errorPayload (message : String)
  | repoAdded (repo : GitHubIntegration) (userIds : List String)
    (teamMembers : List String)
  | thrown (msg : String)
deriving Repr, DecidableEq

/-- The observable effect of one `AddGitHubRepo` call.  `webhookCalls`
records the endpoints of the fire-and-forget webhook invocations issued
during the request. -/
structure AddGitHubRepoResult where
  store : Store
  events : List PubEvent
  webhookCalls : List String
  outcome : AddGitHubRepoOutcome
deriving Repr, DecidableEq

/-- The integration row inserted by AddGitHubRepo when no row exists for
(teamId, nameWithOwner). -/
def freshGitHubRepo (genId : String) (now : Nat) (userId : String)
    (teamId : String) (nameWithOwner : String) : GitHubIntegration :=
  { id := genId
    adminUserId := userId
    createdAt := now
    updatedAt := now
    isActive := true
    nameWithOwner := nameWithOwner
    teamId := teamId
    userIds := [userId] }

/-- The rehydrating update AddGitHubRepo applies to the existing
integration row: the caller becomes the admin and the only joined user,
and the row is reactivated. -/
def rehydrateGitHubRepo (userId : String) (now : Nat)
    (repo : GitHubIntegration) : GitHubIntegration :=
  { repo with
    adminUserId := userId
    isActive := true
    userIds := [userId]
    updatedAt := now }

/-- Modelled from the spec: `maybeJoinRepos` (server/safeMutations, not
under src/).  The spec describes integration records as holding a set of
joined user ids and names rehydration as the only record-creation path,
so joining other team members' providers can only update existing
records; we model the conservative case in which no other provider joins,
returning no extra joiners and leaving the store unchanged. -/
def maybeJoinRepos (repos : List GitHubIntegration) (providers : List Provider)
    (s : Store) : Store × List String :=
  (s, [])

/-- The existing integration row for (teamId, nameWithOwner), as the
resolver looks it up: `getAll(teamId).filter({nameWithOwner}).nth(0)`. -/
def existingGitHubRepo (s : Store) (teamId : String) (nameWithOwner : String) :
    Option GitHubIntegration :=
  (s.githubRepos.filter fun repo => repo.teamId == teamId).find? fun repo =>
    repo.nameWithOwner == nameWithOwner

/-- `AddGitHubRepo.resolve`.  `now` is `new Date()`, `genId` the
`shortid.generate()` value of the insert branch, `viewerPermissions` the
`tokenCanAccessRepo` response, and `webhookOutcome` the (unobserved)
result of the fire-and-forget webhook creation calls. -/
def addGitHubRepo (ctx : MutationContext) (now : Nat) (genId : String)
    (viewerPermissions : GitHubPermissions) (webhookOutcome : Bool)
    (teamId : String) (nameWithOwner : String) (s : Store) :
    AddGitHubRepoResult :=
  let mutatorId := ctx.mutatorId
  let viewerId := getUserId ctx.authToken
  if isTeamMember ctx.authToken teamId then
    let userId := getUserId ctx.authToken
    let allTeamProviders := s.providers.filter fun p =>
      p.teamId == teamId && p.service == GITHUB && p.isActive
    match allTeamProviders.find? fun p => p.userId == userId with
    | none =>
      { store := s, events := [], webhookCalls := []
        outcome := AddGitHubRepoOutcome.errorPayload "GitHub Provider not found" }
    | some viewerProvider =>
      if viewerPermissions.errors then
        { store := s, events := [], webhookCalls := []
          outcome := AddGitHubRepoOutcome.errorPayload "Unknown GitHub error" }
      else
        match viewerPermissions.repository with
        | none =>
          -- destructuring `data.repository` of a malformed response throws
          { store := s, events := [], webhookCalls := []
            outcome := AddGitHubRepoOutcome.thrown "malformed response shape" }
        | some repoInfo =>
          if repoInfo.viewerCanAdminister then
            -- fire-and-forget webhook creation; result never awaited
            let webhookCalls := [createRepoWebhookEndpoint nameWithOwner,
              createOrgWebhookEndpoint nameWithOwner]
            -- create or rehydrate the integration
            let existing := existingGitHubRepo s teamId nameWithOwner
            let newRepo : GitHubIntegration :=
              match existing with
              | none => freshGitHubRepo genId now userId teamId nameWithOwner
              | some old => rehydrateGitHubRepo userId now old
            let s1 : Store :=
              match existing with
              | none => { s with githubRepos := s.githubRepos ++ [newRepo] }
              | some old =>
                { s with githubRepos := s.githubRepos.map fun repo =>
                    if repo.id == old.id then rehydrateGitHubRepo userId now repo
                    else repo }
            let teamMemberProviders := allTeamProviders.filter fun p =>
              !(p.userId == userId)
            let (s2, joinedUserIds) := maybeJoinRepos [newRepo] teamMemberProviders s1
            let userIds := joinedUserIds ++ [userId]
            let teamMembers := ((s2.teamMembers.filter fun tm =>
              userIds.contains tm.userId).filter fun tm =>
                tm.teamId == teamId).map TeamMember.id
            let repoEvent : PubEvent :=
              { topic := "githubRepoAdded." ++ teamId
                data := EventData.githubRepoAdded newRepo userIds teamMembers
                operationId := none
                mutatorId := some mutatorId }
            { store := s2, events := [repoEvent], webhookCalls := webhookCalls
              outcome := AddGitHubRepoOutcome.repoAdded newRepo userIds teamMembers }
          else
            { store := s, events := [], webhookCalls := []
              outcome := AddGitHubRepoOutcome.errorPayload "Not GitHub Administrator" }
  else
    { store := s, events := [], webhookCalls := []
      outcome := AddGitHubRepoOutcome.errorPayload "Team not found" }

/-! ## inviteTeamMembers (src/unnamed/part_002) -/

/-- An invitee argument of the mutation, identified by email. -/
structure Invitee where
  email : String
deriving Repr, DecidableEq

/-- One reactivation record returned by the inviteTeamMembers safe
mutation. -/
structure Reactivation where
  notificationId : String
  teamMemberId : String
  preferredName : String
deriving Repr, DecidableEq

/-- The payload of the inviteTeamMembers mutation. -/
structure InviteTeamMembersPayload where
  reactivatedTeamMemberIds : List String
  results : List String
deriving Repr, DecidableEq

/-- Modelled from the spec: `requireOrgLeaderOrTeamMember` (authorization
helper, not under src/) allows org leaders and team members; only the
team-membership disjunct is exercised by the claims, so the model checks
membership from the decoded token. -/
def isOrgLeaderOrTeamMember (authToken : AuthToken) (teamId : String) : Bool :=
  isTeamMember authToken teamId

/-- Modelled from the spec: the `inviteTeamMembers` safe mutation
(server/safeMutations/inviteTeamMembers, not under src/).  Per the spec,
re-inviting a previously removed team member marks the existing
TeamMember row active again (rehydration) rather than inserting a
duplicate row, records a persisted rejoin notification for that member,
and reports the reactivation; an invitee who is not a removed member is
added to the invitation flow without touching TeamMember rows. -/
def safeInviteTeamMembers (invitees : List Invitee) (teamId : String)
    (genNotifId : Nat → String) (s : Store) :
    Store × List Reactivation × List String :=
  invitees.enum.foldl
    (fun acc pair =>
      let st := acc.fst
      let reacts := acc.snd.fst
      let results := acc.snd.snd
      let invitee := pair.snd
      match st.users.find? fun u => u.email == invitee.email with
      | some u =>
        match st.teamMembers.find? fun tm =>
            tm.userId == u.id && tm.teamId == teamId with
        | some tm =>
          if tm.isNotRemoved then
            (st, reacts, results ++ ["alreadyOnTeam"])
          else
            let notifId := genNotifId pair.fst
            let teamName := ((st.teams.find? fun t => t.id == teamId).map
              Team.name).getD ""
            let st1 : Store := { st with
              teamMembers := st.teamMembers.map fun tmx =>
                if tmx.id == tm.id then { tmx with isNotRemoved := true } else tmx
              notifications := st.notifications ++
                [{ id := notifId
                   orgId := ""
                   startAt := 0
                   type := REJOIN_TEAM
                   userIds := [u.id]
                   teamName := teamName }] }
            (st1,
             reacts ++ [{ notificationId := notifId
                          teamMemberId := tm.id
                          preferredName := tm.preferredName }],
             results ++ ["reactivated"])
        | none => (st, reacts, results ++ ["invited"])
      | none => (st, reacts, results ++ ["invited"]))
    (s, [], [])

/-- `inviteTeamMembers.resolve` (the mutation resolver of part_002):
authorization, the safe mutation, then for each reactivation a
`TEAM_MEMBER.<teamId>` publish carrying a REJOIN_TEAM toast and a
`TEAM.<userId>` publish carrying the persisted notification id, both
spreading `subOptions = {mutatorId, operationId}`. -/
def inviteTeamMembersMutation (ctx : MutationContext) (genNotifId : Nat → String)
    (invitees : List Invitee) (teamId : String) (s : Store) :
    ResolverResult InviteTeamMembersPayload :=
  let operationId := ctx.operationId
  let mutatorId := ctx.mutatorId
  if isOrgLeaderOrTeamMember ctx.authToken teamId then
    let res := safeInviteTeamMembers invitees teamId genNotifId s
    let s1 := res.fst
    let reactivations := res.snd.fst
    let results := res.snd.snd
    let reactivatedTeamMemberIds := reactivations.map Reactivation.teamMemberId
    let events := (reactivations.map fun reactivated =>
      [{ topic := TEAM_MEMBER ++ "." ++ teamId
         data := EventData.teamMemberAdded reactivated.teamMemberId REJOIN_TEAM ADDED
         operationId := some operationId
         mutatorId := some mutatorId : PubEvent },
       { topic := TEAM ++ "." ++ fromTeamMemberId reactivated.teamMemberId
         data := EventData.teamNotified teamId reactivated.notificationId ADDED
         operationId := some operationId
         mutatorId := some mutatorId : PubEvent }]).flatten
    { store := s1, events := events
      outcome := ResolveOutcome.payload
        { reactivatedTeamMemberIds := reactivatedTeamMemberIds, results := results } }
  else
    { store := s, events := []
      outcome := ResolveOutcome.thrown "Unauthorized" }

/-! ## Concrete fixtures used by counterexamples and witnesses -/

def tokenW : AuthToken := { sub := "u1", tms := ["t1"] }

def ctxW : MutationContext :=
  { authToken := tokenW, operationId := 7, mutatorId := "sock1" }

def genIdW : Nat → String := fun i => "notif" ++ toString i

def teamW : Team := { id := "t1", name := "Alpha", orgId := "o1", isArchived := false }

def leadW : TeamMember :=
  { id := "u1::t1", teamId := "t1", userId := "u1", preferredName := "Ada"
    isNotRemoved := true, isLead := true }

def memberW2 : TeamMember :=
  { id := "u2::t1", teamId := "t1", userId := "u2", preferredName := "Bob"
    isNotRemoved := true, isLead := false }

def userW1 : User := { id := "u1", email := "u1@example.com", tms := ["t1"] }

def userW2 : User := { id := "u2", email := "u2@example.com", tms := ["t1"] }

def projW : Project := { id := "p1", teamId := "t1" }

def emptyStore : Store :=
  { teams := [], teamMembers := [], users := [], projects := []
    notifications := [], providers := [], githubRepos := [] }

/-- A team with zero projects and exactly one non-removed member: the
hard-delete case. -/
def storeHard : Store :=
  { emptyStore with teams := [teamW], teamMembers := [leadW], users := [userW1] }

/-- A team with two non-removed members and one project: the soft-archive
case. -/
def storeSoft : Store :=
  { emptyStore with
    teams := [teamW]
    teamMembers := [leadW, memberW2]
    users := [userW1, userW2]
    projects := [projW] }

def teamArchivedW : Team := { teamW with isArchived := true }

/-- An already-archived team (one member, one project, soft branch). -/
def storeArchived : Store :=
  { emptyStore with
    teams := [teamArchivedW]
    teamMembers := [leadW]
    users := [userW1]
    projects := [projW] }

def providerW : Provider :=
  { id := "pr1", teamId := "t1", userId := "u1", service := GITHUB
    isActive := true, accessToken := "tok" }

def permsOk : GitHubPermissions :=
  { errors := false, repository := some { viewerCanAdminister := true, databaseId := 42 } }

/-- A store ready for AddGitHubRepo with no existing integration row. -/
def storeGH : Store :=
  { emptyStore with
    teams := [teamW]
    teamMembers := [leadW]
    users := [userW1]
    providers := [providerW] }

def oldRepoW : GitHubIntegration :=
  { id := "g0", adminUserId := "u9", createdAt := 0, updatedAt := 0
    isActive := false, nameWithOwner := "acme/widget", teamId := "t1"
    userIds := ["u9", "u8"] }

/-- A store holding a deactivated integration row for (t1, acme/widget). -/
def storeGHexisting : Store := { storeGH with githubRepos := [oldRepoW] }

def removedMemberW : TeamMember :=
  { id := "u2::t1", teamId := "t1", userId := "u2", preferredName := "Bob"
    isNotRemoved := false, isLead := false }

/-- A store whose team has one active member and one removed member. -/
def storeInvite : Store :=
  { emptyStore with
    teams := [teamW]
    teamMembers := [leadW, removedMemberW]
    users := [userW1, userW2] }


/-- A caller who is on no team. -/
def tokenBad : AuthToken := { sub := "u9", tms := [] }

def ctxBad : MutationContext :=
  { authToken := tokenBad, operationId := 9, mutatorId := "sock9" }

/-- A `tokenCanAccessRepo` response with an error body. -/
def permsErr : GitHubPermissions := { errors := true, repository := none }

/-- A malformed `tokenCanAccessRepo` response: no error body and no
repository object. -/
def permsMalformed : GitHubPermissions := { errors := false, repository := none }

/-- A `tokenCanAccessRepo` response for a caller who cannot administer
the repository. -/
def permsNoAdmin : GitHubPermissions :=
  { errors := false, repository := some { viewerCanAdminister := false, databaseId := 42 } }

/-- Recognizes a publish on a per-user notification topic
(`NOTIFICATIONS_ADDED.<userId>` with a `notificationsAdded` payload). -/
def isNotificationsAddedEvent (e : PubEvent) : Bool :=
  match e.data with
  | EventData.notificationsAdded _ => true
  | _ => false

/-- Recognizes the team-update publish (`TEAM.<teamId>` with a
`{data: {teamId, type}}` payload). -/
def isTeamUpdatedEvent (e : PubEvent) : Bool :=
  match e.data with
  | EventData.teamUpdated _ _ => true
  | _ => false

/-- The number of integration rows for one (teamId, nameWithOwner) key. -/
def githubKeyCount (s : Store) (teamId : String) (nameWithOwner : String) : Nat :=
  (s.githubRepos.filter fun repo =>
    repo.teamId == teamId && repo.nameWithOwner == nameWithOwner).length

/-! ## Shared lemmas -/

/-- Mapping a function that does not change the truth of `p` on any
element of `l` preserves the length of the `p`-filtered list. -/
theorem length_filter_map_of_pred_eq {α : Type} (f : α → α) (p : α → Bool)
    (l : List α) (h : ∀ x ∈ l, p (f x) = p x) :
    ((l.map f).filter p).length = (l.filter p).length := by
  induction l with
  | nil => rfl
  | cons a l ih =>
    simp only [List.map_cons, List.filter_cons, h a (List.mem_cons_self a l)]
    cases hpa : p a <;>
      simp [ih fun x hx => h x (List.mem_cons_of_mem a hx)]

/-! ## Claim theorems -/

/-- C1: archiving a team with zero dependent Project rows and exactly one
non-removed TeamMember hard-deletes the Team document and all of its
TeamMember rows; archiving a team with more projects or more members sets
`isArchived` on the Team document and leaves the Team and TeamMember rows
in the store. -/
theorem archiveTeam_hard_delete_vs_soft_archive
    (ctx : MutationContext) (now : Nat) (genId : Nat → String)
    (teamId : String) (s : Store) (team : Team)
    (hauth : isTeamLead s (toTeamMemberId teamId (getUserId ctx.authToken)) = true)
    (hteam : s.teams.find? (fun t => t.id == teamId) = some team) :
    (projectCount s teamId = 0 ∧ (activeMemberUserIds s teamId).length = 1 →
      (∀ t ∈ (archiveTeam ctx now genId teamId s).store.teams, ¬ t.id = teamId) ∧
      (∀ tm ∈ (archiveTeam ctx now genId teamId s).store.teamMembers,
        ¬ tm.teamId = teamId)) ∧
    (0 < projectCount s teamId ∨ 1 < (activeMemberUserIds s teamId).length →
      (archiveTeam ctx now genId teamId s).store.teamMembers = s.teamMembers ∧
      ∃ t ∈ (archiveTeam ctx now genId teamId s).store.teams,
        t.id = teamId ∧ t.isArchived = true) := by
  constructor
  · rintro ⟨hpc, hmc⟩
    have hcond : (projectCount s teamId == 0 &&
        (activeMemberUserIds s teamId).length == 1) = true := by
      simp [hpc, hmc]
    simp only [archiveTeam, hauth, if_true, hteam, hcond]
    constructor
    · intro t ht
      simp only [List.mem_filter, Bool.not_eq_true', beq_eq_false_iff_ne] at ht
      exact fun he => ht.2 (by simpa using he)
    · intro tm htm
      simp only [List.mem_filter, Bool.not_eq_true', beq_eq_false_iff_ne] at htm
      exact fun he => htm.2 (by simpa using he)
  · intro hbig
    have hcond : (projectCount s teamId == 0 &&
        (activeMemberUserIds s teamId).length == 1) = false := by
      rcases hbig with h | h
      · simp [Nat.pos_iff_ne_zero.mp h]
      · have : (activeMemberUserIds s teamId).length ≠ 1 := Nat.ne_of_gt h
        simp [this]
    simp only [archiveTeam, hauth, if_true, hteam, hcond]
    have hmem : team ∈ s.teams := List.mem_of_find?_eq_some hteam
    have hid : team.id = teamId := by
      have := List.find?_some hteam
      simpa using this
    cases hres : (if team.isArchived then (none : Option Team)
        else some { team with isArchived := true }) with
    | none =>
      simp only [hres, Bool.false_eq_true, if_false]
      refine ⟨by simp, ?_⟩
      refine ⟨{ team with isArchived := true }, ?_, by simpa using hid, rfl⟩
      have : team ∈ s.teams := hmem
      refine List.mem_map.mpr ⟨team, hmem, ?_⟩
      simp [hid]
    | some tr =>
      simp only [hres]
      refine ⟨by simp, ?_⟩
      refine ⟨{ team with isArchived := true }, ?_, by simpa using hid, rfl⟩
      refine List.mem_map.mpr ⟨team, hmem, ?_⟩
      simp [hid]

/-- Witness for C1: the concrete one-member zero-project team is hard
deleted. -/
theorem archiveTeam_hard_delete_vs_soft_archive_witness :
    (∀ t ∈ (archiveTeam ctxW 5 genIdW "t1" storeHard).store.teams, ¬ t.id = "t1") ∧
    (∀ tm ∈ (archiveTeam ctxW 5 genIdW "t1" storeHard).store.teamMembers,
      ¬ tm.teamId = "t1") :=
  (archiveTeam_hard_delete_vs_soft_archive ctxW 5 genIdW "t1" storeHard teamW
    (by decide) (by decide)).1 ⟨by decide, by decide⟩

/-- C2 counterexample: archiving a team with exactly one active member
and zero projects (the case the claim explicitly includes) inserts zero
"team archived" Notification rows and performs zero publishes on the
per-user notification topic, not one of each. -/
theorem archiveTeam_notifications_hard_delete_counterexample :
    ¬ ((((archiveTeam ctxW 5 genIdW "t1" storeHard).store.notifications.filter
          fun n => n.type == TEAM_ARCHIVED).length = 1) ∧
       (((archiveTeam ctxW 5 genIdW "t1" storeHard).events.filter
          isNotificationsAddedEvent).length = 1)) := by
  decide

/-- Mapping an index-insensitive function over `l.enum` is mapping over
`l`. -/
theorem map_enum_comp {α β : Type} (l : List α) (g : α → β) (f : Nat × α → β)
    (h : ∀ p, f p = g p.snd) : l.enum.map f = l.map g := by
  calc l.enum.map f = l.enum.map (g ∘ Prod.snd) := by
        apply List.map_congr_left
        intro p _
        exact h p
    _ = (l.enum.map Prod.snd).map g := by rw [List.map_map]
    _ = l.map g := by rw [List.enum_map_snd]

/-- Every event built by `publishTeamArchivedNotifications` is a
per-user notification publish. -/
theorem publishTeamArchivedNotifications_all_notifAdded
    (notifications : List Notification) (subOptions : Option SubOptions) :
    (publishTeamArchivedNotifications notifications subOptions).filter
      isNotificationsAddedEvent =
    publishTeamArchivedNotifications notifications subOptions := by
  apply List.filter_eq_self.mpr
  intro e he
  rcases List.mem_map.mp he with ⟨n, _, rfl⟩
  rfl

/-- No event built by `publishTeamArchivedNotifications` is the
team-update publish. -/
theorem publishTeamArchivedNotifications_no_teamUpdated
    (notifications : List Notification) (subOptions : Option SubOptions) :
    (publishTeamArchivedNotifications notifications subOptions).filter
      isTeamUpdatedEvent = [] := by
  apply List.filter_eq_nil_iff.mpr
  intro e he
  rcases List.mem_map.mp he with ⟨n, _, rfl⟩
  simp [isTeamUpdatedEvent]

/-- No event built by `publishAuthTokensWithoutTeam` is a per-user
notification publish. -/
theorem publishAuthTokensWithoutTeam_no_notifAdded (userDocs : List User) :
    (publishAuthTokensWithoutTeam userDocs).filter isNotificationsAddedEvent = [] := by
  apply List.filter_eq_nil_iff.mpr
  intro e he
  rcases List.mem_map.mp he with ⟨u, _, rfl⟩
  simp [isNotificationsAddedEvent]

/-- No event built by `publishAuthTokensWithoutTeam` is the team-update
publish. -/
theorem publishAuthTokensWithoutTeam_no_teamUpdated (userDocs : List User) :
    (publishAuthTokensWithoutTeam userDocs).filter isTeamUpdatedEvent = [] := by
  apply List.filter_eq_nil_iff.mpr
  intro e he
  rcases List.mem_map.mp he with ⟨u, _, rfl⟩
  simp [isTeamUpdatedEvent]

/-- C2 (amended): archiving an unarchived team publishes exactly one
team-update event; when the team is soft-archived (it has a project or
more than one active member) exactly N "team archived" Notification rows
are appended, one per active member and each scoped to that single user,
and exactly N per-user notification publishes are performed; when the
team is hard-deleted (zero projects, exactly one member) zero
notification rows are inserted and zero per-user notification publishes
are performed. -/
theorem archiveTeam_notification_fanout
    (ctx : MutationContext) (now : Nat) (genId : Nat → String)
    (teamId : String) (s : Store) (team : Team)
    (hauth : isTeamLead s (toTeamMemberId teamId (getUserId ctx.authToken)) = true)
    (hteam : s.teams.find? (fun t => t.id == teamId) = some team)
    (hnotarch : team.isArchived = false) :
    (¬ (projectCount s teamId = 0 ∧ (activeMemberUserIds s teamId).length = 1) →
      (∃ notifs,
        (archiveTeam ctx now genId teamId s).store.notifications =
          s.notifications ++ notifs ∧
        notifs.map Notification.type =
          (activeMemberUserIds s teamId).map (fun u => TEAM_ARCHIVED) ∧
        notifs.map Notification.userIds =
          (activeMemberUserIds s teamId).map (fun u => [u])) ∧
      ((archiveTeam ctx now genId teamId s).events.filter
        isNotificationsAddedEvent).length = (activeMemberUserIds s teamId).length ∧
      ((archiveTeam ctx now genId teamId s).events.filter
        isTeamUpdatedEvent).length = 1) ∧
    (projectCount s teamId = 0 ∧ (activeMemberUserIds s teamId).length = 1 →
      (archiveTeam ctx now genId teamId s).store.notifications = s.notifications ∧
      ((archiveTeam ctx now genId teamId s).events.filter
        isNotificationsAddedEvent).length = 0 ∧
      ((archiveTeam ctx now genId teamId s).events.filter
        isTeamUpdatedEvent).length = 1) := by
  constructor
  · intro hsoft
    have hcond : (projectCount s teamId == 0 &&
        (activeMemberUserIds s teamId).length == 1) = false := by
      rcases Decidable.em (projectCount s teamId = 0) with h0 | h0
      · have h1 : (activeMemberUserIds s teamId).length ≠ 1 :=
          fun h1 => hsoft ⟨h0, h1⟩
        simp [h1]
      · simp [h0]
    simp only [archiveTeam, hauth, if_true, hteam, hcond, hnotarch,
      Bool.false_eq_true, if_false]
    refine ⟨⟨(activeMemberUserIds s teamId).enum.map fun pair =>
      { id := genId pair.fst
        orgId := team.orgId
        startAt := now
        type := TEAM_ARCHIVED
        userIds := [pair.snd]
        teamName := team.name : Notification }, by simp, ?_, ?_⟩, ?_, ?_⟩
    · rw [List.map_map]
      exact map_enum_comp (activeMemberUserIds s teamId) _ _ fun p => rfl
    · rw [List.map_map]
      exact map_enum_comp (activeMemberUserIds s teamId) _ _ fun p => rfl
    · rw [List.filter_append, publishTeamArchivedNotifications_all_notifAdded]
      simp only [publishTeamArchivedNotifications, List.length_append,
        List.length_map, List.enum_length]
      rw [List.filter_cons]
      have : isNotificationsAddedEvent
          { topic := TEAM ++ "." ++ teamId
            data := EventData.teamUpdated teamId UPDATED
            operationId := some ctx.operationId
            mutatorId := some ctx.mutatorId } = false := rfl
      rw [this]
      simp [publishAuthTokensWithoutTeam_no_notifAdded]
    · rw [List.filter_append, publishTeamArchivedNotifications_no_teamUpdated]
      rw [List.filter_cons]
      have : isTeamUpdatedEvent
          { topic := TEAM ++ "." ++ teamId
            data := EventData.teamUpdated teamId UPDATED
            operationId := some ctx.operationId
            mutatorId := some ctx.mutatorId } = true := rfl
      rw [this]
      simp [publishAuthTokensWithoutTeam_no_teamUpdated]
  · rintro ⟨hpc, hmc⟩
    have hcond : (projectCount s teamId == 0 &&
        (activeMemberUserIds s teamId).length == 1) = true := by
      simp [hpc, hmc]
    simp only [archiveTeam, hauth, if_true, hteam, hcond]
    refine ⟨by simp, ?_, ?_⟩
    · rw [List.filter_cons]
      have : isNotificationsAddedEvent
          { topic := TEAM ++ "." ++ teamId
            data := EventData.teamUpdated teamId UPDATED
            operationId := some ctx.operationId
            mutatorId := some ctx.mutatorId } = false := rfl
      rw [this]
      simp [publishAuthTokensWithoutTeam_no_notifAdded]
    · rw [List.filter_cons]
      have : isTeamUpdatedEvent
          { topic := TEAM ++ "." ++ teamId
            data := EventData.teamUpdated teamId UPDATED
            operationId := some ctx.operationId
            mutatorId := some ctx.mutatorId } = true := rfl
      rw [this]
      simp [publishAuthTokensWithoutTeam_no_teamUpdated]

/-- Witness for C2 (amended): the two-member one-project team gets two
notification rows, two per-user publishes and one team-update publish. -/
theorem archiveTeam_notification_fanout_witness :
    (∃ notifs,
      (archiveTeam ctxW 5 genIdW "t1" storeSoft).store.notifications =
        storeSoft.notifications ++ notifs ∧
      notifs.map Notification.type =
        (activeMemberUserIds storeSoft "t1").map (fun u => TEAM_ARCHIVED) ∧
      notifs.map Notification.userIds =
        (activeMemberUserIds storeSoft "t1").map (fun u => [u])) ∧
    ((archiveTeam ctxW 5 genIdW "t1" storeSoft).events.filter
      isNotificationsAddedEvent).length = (activeMemberUserIds storeSoft "t1").length ∧
    ((archiveTeam ctxW 5 genIdW "t1" storeSoft).events.filter
      isTeamUpdatedEvent).length = 1 :=
  (archiveTeam_notification_fanout ctxW 5 genIdW "t1" storeSoft teamW
    (by decide) (by decide) (by decide)).1 (by decide)

/-- C3 counterexample: archiving an already-archived team (a
business-rule failure the claim names) is thrown as a fatal error, not
returned as a structured error payload. -/
theorem archiveTeam_already_archived_throws :
    (archiveTeam ctxW 5 genIdW "t1" storeArchived).outcome =
      ResolveOutcome.thrown "Team was already archived" := by
  decide

/-- C3 (amended): AddGitHubRepo reports its authorization failure and its
business-rule failures (provider not linked, upstream error body, not an
administrator) as structured error payloads and throws only on a
malformed response shape, while archiveTeam throws both its authorization
failure and the already-archived business-rule failure as fatal request
errors. -/
theorem resolver_error_channels
    (ctx : MutationContext) (now : Nat) (genId : String)
    (perms : GitHubPermissions) (webhookOutcome : Bool)
    (teamId : String) (nameWithOwner : String) (s : Store)
    (nowA : Nat) (genIdA : Nat → String) :
    (isTeamMember ctx.authToken teamId = false →
      (addGitHubRepo ctx now genId perms webhookOutcome teamId nameWithOwner
        s).outcome = AddGitHubRepoOutcome.errorPayload "Team not found") ∧
    (isTeamMember ctx.authToken teamId = true →
      (s.providers.filter fun p =>
        p.teamId == teamId && p.service == GITHUB && p.isActive).find?
          (fun p => p.userId == getUserId ctx.authToken) = none →
      (addGitHubRepo ctx now genId perms webhookOutcome teamId nameWithOwner
        s).outcome = AddGitHubRepoOutcome.errorPayload "GitHub Provider not found") ∧
    (perms.errors = true →
      (addGitHubRepo ctx now genId perms webhookOutcome teamId nameWithOwner
        s).outcome = AddGitHubRepoOutcome.errorPayload "Unknown GitHub error" ∨
      (addGitHubRepo ctx now genId perms webhookOutcome teamId nameWithOwner
        s).outcome = AddGitHubRepoOutcome.errorPayload "Team not found" ∨
      (addGitHubRepo ctx now genId perms webhookOutcome teamId nameWithOwner
        s).outcome = AddGitHubRepoOutcome.errorPayload "GitHub Provider not found") ∧
    (perms.errors = false → perms.repository = none →
      isTeamMember ctx.authToken teamId = true →
      (s.providers.filter fun p =>
        p.teamId == teamId && p.service == GITHUB && p.isActive).find?
          (fun p => p.userId == getUserId ctx.authToken) ≠ none →
      ∃ msg, (addGitHubRepo ctx now genId perms webhookOutcome teamId nameWithOwner
        s).outcome = AddGitHubRepoOutcome.thrown msg) ∧
    (∀ info, perms.errors = false → perms.repository = some info →
      info.viewerCanAdminister = false →
      isTeamMember ctx.authToken teamId = true →
      (s.providers.filter fun p =>
        p.teamId == teamId && p.service == GITHUB && p.isActive).find?
          (fun p => p.userId == getUserId ctx.authToken) ≠ none →
      (addGitHubRepo ctx now genId perms webhookOutcome teamId nameWithOwner
        s).outcome = AddGitHubRepoOutcome.errorPayload "Not GitHub Administrator") ∧
    (isTeamLead s (toTeamMemberId teamId (getUserId ctx.authToken)) = false →
      (archiveTeam ctx nowA genIdA teamId s).outcome =
        ResolveOutcome.thrown "Unauthorized") ∧
    (∀ team, isTeamLead s (toTeamMemberId teamId (getUserId ctx.authToken)) = true →
      s.teams.find? (fun t => t.id == teamId) = some team →
      team.isArchived = true →
      (projectCount s teamId == 0 &&
        (activeMemberUserIds s teamId).length == 1) = false →
      (archiveTeam ctx nowA genIdA teamId s).outcome =
        ResolveOutcome.thrown "Team was already archived") := by
  refine ⟨?_, ?_, ?_, ?_, ?_, ?_, ?_⟩
  · intro h
    simp [addGitHubRepo, h]
  · intro h hfind
    simp [addGitHubRepo, h, hfind]
  · intro herr
    by_cases hmem : isTeamMember ctx.authToken teamId = true
    · cases hfind : (s.providers.filter fun p =>
        p.teamId == teamId && p.service == GITHUB && p.isActive).find?
          (fun p => p.userId == getUserId ctx.authToken) with
      | none =>
        right; right
        simp [addGitHubRepo, hmem, hfind]
      | some prov =>
        left
        simp [addGitHubRepo, hmem, hfind, herr]
    · right; left
      simp only [Bool.not_eq_true] at hmem
      simp [addGitHubRepo, hmem]
  · intro herr hrepo hmem hfind
    cases hf : (s.providers.filter fun p =>
        p.teamId == teamId && p.service == GITHUB && p.isActive).find?
          (fun p => p.userId == getUserId ctx.authToken) with
    | none => exact absurd hf hfind
    | some prov =>
      refine ⟨"malformed response shape", ?_⟩
      simp [addGitHubRepo, hmem, hf, herr, hrepo]
  · intro info herr hrepo hadm hmem hfind
    cases hf : (s.providers.filter fun p =>
        p.teamId == teamId && p.service == GITHUB && p.isActive).find?
          (fun p => p.userId == getUserId ctx.authToken) with
    | none => exact absurd hf hfind
    | some prov =>
      simp [addGitHubRepo, hmem, hf, herr, hrepo, hadm]
  · intro h
    simp [archiveTeam, h]
  · intro team hauth hteam harch hcond
    simp [archiveTeam, hauth, hteam, hcond, harch]

/-- Witness for C3 (amended), exercising each channel at a concrete
input: denied membership, missing provider, upstream error body,
malformed response, a caller who is not a GitHub administrator, denied
team lead, and an already-archived team. -/
theorem resolver_error_channels_witness :
    ((addGitHubRepo ctxBad 5 "g1" permsOk true "t1" "acme/widget"
      storeGH).outcome = AddGitHubRepoOutcome.errorPayload "Team not found") ∧
    ((addGitHubRepo ctxW 5 "g1" permsOk true "t1" "acme/widget"
      storeHard).outcome = AddGitHubRepoOutcome.errorPayload "GitHub Provider not found") ∧
    ((addGitHubRepo ctxW 5 "g1" permsErr true "t1" "acme/widget"
      storeGH).outcome = AddGitHubRepoOutcome.errorPayload "Unknown GitHub error" ∨
     (addGitHubRepo ctxW 5 "g1" permsErr true "t1" "acme/widget"
      storeGH).outcome = AddGitHubRepoOutcome.errorPayload "Team not found" ∨
     (addGitHubRepo ctxW 5 "g1" permsErr true "t1" "acme/widget"
      storeGH).outcome = AddGitHubRepoOutcome.errorPayload "GitHub Provider not found") ∧
    (∃ msg, (addGitHubRepo ctxW 5 "g1" permsMalformed true "t1" "acme/widget"
      storeGH).outcome = AddGitHubRepoOutcome.thrown msg) ∧
    ((addGitHubRepo ctxW 5 "g1" permsNoAdmin true "t1" "acme/widget"
      storeGH).outcome = AddGitHubRepoOutcome.errorPayload "Not GitHub Administrator") ∧
    ((archiveTeam ctxBad 5 genIdW "t1" storeHard).outcome =
      ResolveOutcome.thrown "Unauthorized") ∧
    ((archiveTeam ctxW 5 genIdW "t1" storeArchived).outcome =
      ResolveOutcome.thrown "Team was already archived") :=
  ⟨(resolver_error_channels ctxBad 5 "g1" permsOk true "t1" "acme/widget"
      storeGH 5 genIdW).1 (by decide),
   (resolver_error_channels ctxW 5 "g1" permsOk true "t1" "acme/widget"
      storeHard 5 genIdW).2.1 (by decide) (by decide),
   (resolver_error_channels ctxW 5 "g1" permsErr true "t1" "acme/widget"
      storeGH 5 genIdW).2.2.1 (by decide),
   (resolver_error_channels ctxW 5 "g1" permsMalformed true "t1" "acme/widget"
      storeGH 5 genIdW).2.2.2.1 (by decide) (by decide) (by decide) (by decide),
   (resolver_error_channels ctxW 5 "g1" permsNoAdmin true "t1" "acme/widget"
      storeGH 5 genIdW).2.2.2.2.1 { viewerCanAdminister := false, databaseId := 42 }
      (by decide) (by decide) (by decide) (by decide) (by decide),
   (resolver_error_channels ctxBad 5 "g1" permsOk true "t1" "acme/widget"
      storeHard 5 genIdW).2.2.2.2.2.1 (by decide),
   (resolver_error_channels ctxW 5 "g1" permsOk true "t1" "acme/widget"
      storeArchived 5 genIdW).2.2.2.2.2.2 teamArchivedW (by decide) (by decide)
      (by decide) (by decide)⟩

/-- C5: when the authorization predicate denies the caller, each resolver
leaves the document store untouched and publishes nothing before raising
or returning the authorization failure. -/
theorem auth_denied_no_side_effects
    (ctx : MutationContext) (now : Nat) (genId : Nat → String) (genIdG : String)
    (perms : GitHubPermissions) (webhookOutcome : Bool)
    (genNotifId : Nat → String) (invitees : List Invitee)
    (teamId : String) (nameWithOwner : String) (s : Store) :
    (isTeamLead s (toTeamMemberId teamId (getUserId ctx.authToken)) = false →
      (archiveTeam ctx now genId teamId s).store = s ∧
      (archiveTeam ctx now genId teamId s).events = []) ∧
    (isTeamMember ctx.authToken teamId = false →
      (addGitHubRepo ctx now genIdG perms webhookOutcome teamId nameWithOwner
        s).store = s ∧
      (addGitHubRepo ctx now genIdG perms webhookOutcome teamId nameWithOwner
        s).events = []) ∧
    (isOrgLeaderOrTeamMember ctx.authToken teamId = false →
      (inviteTeamMembersMutation ctx genNotifId invitees teamId s).store = s ∧
      (inviteTeamMembersMutation ctx genNotifId invitees teamId s).events = []) := by
  refine ⟨?_, ?_, ?_⟩
  · intro h
    constructor <;> simp [archiveTeam, h]
  · intro h
    constructor <;> simp [addGitHubRepo, h]
  · intro h
    constructor <;> simp [inviteTeamMembersMutation, h]

/-- Witness for C5: the team-less caller leaves store and event stream
untouched in all three resolvers. -/
theorem auth_denied_no_side_effects_witness :
    ((archiveTeam ctxBad 5 genIdW "t1" storeHard).store = storeHard ∧
     (archiveTeam ctxBad 5 genIdW "t1" storeHard).events = []) ∧
    ((addGitHubRepo ctxBad 5 "g1" permsOk true "t1" "acme/widget"
       storeHard).store = storeHard ∧
     (addGitHubRepo ctxBad 5 "g1" permsOk true "t1" "acme/widget"
       storeHard).events = []) ∧
    ((inviteTeamMembersMutation ctxBad genIdW [{ email := "u2@example.com" }]
       "t1" storeHard).store = storeHard ∧
     (inviteTeamMembersMutation ctxBad genIdW [{ email := "u2@example.com" }]
       "t1" storeHard).events = []) :=
  have h := auth_denied_no_side_effects ctxBad 5 genIdW "g1" permsOk true genIdW
    [{ email := "u2@example.com" }] "t1" "acme/widget" storeHard
  ⟨h.1 (by decide), h.2.1 (by decide), h.2.2 (by decide)⟩

/-- C9: whenever archiveTeam returns a payload, the team object in it has
`isArchived = true`, in the hard-delete branch as well as the
soft-archive branch, so the caller cannot tell the two apart. -/
theorem archiveTeam_payload_always_archived
    (ctx : MutationContext) (now : Nat) (genId : Nat → String)
    (teamId : String) (s : Store) (p : TeamUpdatedPayload)
    (h : (archiveTeam ctx now genId teamId s).outcome = ResolveOutcome.payload p) :
    p.team.isArchived = true := by
  simp only [archiveTeam] at h
  by_cases hlead : isTeamLead s
      (toTeamMemberId teamId (getUserId ctx.authToken)) = true
  · simp only [hlead, if_true] at h
    cases hteam : s.teams.find? fun t => t.id == teamId with
    | none => simp [hteam] at h
    | some team =>
      simp only [hteam] at h
      by_cases hcond : (projectCount s teamId == 0 &&
          (activeMemberUserIds s teamId).length == 1) = true
      · simp only [hcond, if_true] at h
        simp at h
        subst h
        rfl
      · simp only [Bool.not_eq_true] at hcond
        simp only [hcond, Bool.false_eq_true, if_false] at h
        by_cases harch : team.isArchived = true
        · simp [harch] at h
        · simp only [Bool.not_eq_true] at harch
          simp only [harch, Bool.false_eq_true, if_false] at h
          simp at h
          subst h
          rfl
  · simp only [Bool.not_eq_true] at hlead
    simp [hlead] at h

/-- Witness for C9 at the hard-delete fixture: the returned team reads
`isArchived = true` although the Team row was deleted. -/
theorem archiveTeam_payload_always_archived_witness :
    { team := { id := "t1", name := "Alpha", orgId := "o1", isArchived := true }
      : TeamUpdatedPayload }.team.isArchived = true :=
  archiveTeam_payload_always_archived ctxW 5 genIdW "t1" storeHard
    { team := { id := "t1", name := "Alpha", orgId := "o1", isArchived := true } }
    (by decide)

/-- C4 (code divergence): at a soft-archive input, both per-user
notification publishes of archiveTeam carry neither the request's
operationId nor the mutatorId (`publishTeamArchivedNotifications` is
invoked without its `subOptions` argument), while every publish of the
team-invitation resolver carries both. -/
theorem archiveTeam_notification_publish_lacks_correlation
    : (((archiveTeam ctxW 5 genIdW "t1" storeSoft).events.filter
        fun e => isNotificationsAddedEvent e && e.operationId == none &&
          e.mutatorId == none).length = 2) ∧
      (((archiveTeam ctxW 5 genIdW "t1" storeSoft).events.filter
        fun e => isNotificationsAddedEvent e &&
          e.operationId == some ctxW.operationId).length = 0) ∧
      ((inviteTeamMembersMutation ctxW genIdW [{ email := "u2@example.com" }]
        "t1" storeInvite).events.all
        fun e => e.operationId == some ctxW.operationId &&
          e.mutatorId == some ctxW.mutatorId) = true := by
  decide

/-- On a successful AddGitHubRepo call the store changes only in the
integration table — insert when no row matches (teamId, nameWithOwner),
the rehydrating by-id update otherwise — and the outcome returns the
inserted or rehydrated row. -/
theorem addGitHubRepo_success
    (ctx : MutationContext) (now : Nat) (genId : String)
    (perms : GitHubPermissions) (w : Bool)
    (teamId : String) (nameWithOwner : String) (s : Store)
    (prov : Provider) (info : GitHubRepoInfo)
    (hmem : isTeamMember ctx.authToken teamId = true)
    (hprov : (s.providers.filter fun p =>
        p.teamId == teamId && p.service == GITHUB && p.isActive).find?
        (fun p => p.userId == getUserId ctx.authToken) = some prov)
    (herr : perms.errors = false)
    (hrepo : perms.repository = some info)
    (hadmin : info.viewerCanAdminister = true) :
    (addGitHubRepo ctx now genId perms w teamId nameWithOwner s).store =
      { s with githubRepos :=
        match existingGitHubRepo s teamId nameWithOwner with
        | none => s.githubRepos ++
            [freshGitHubRepo genId now (getUserId ctx.authToken) teamId nameWithOwner]
        | some old => s.githubRepos.map fun repo =>
            if repo.id == old.id then
              rehydrateGitHubRepo (getUserId ctx.authToken) now repo
            else repo } ∧
    (addGitHubRepo ctx now genId perms w teamId nameWithOwner s).outcome =
      AddGitHubRepoOutcome.repoAdded
        (match existingGitHubRepo s teamId nameWithOwner with
         | none => freshGitHubRepo genId now (getUserId ctx.authToken) teamId nameWithOwner
         | some old => rehydrateGitHubRepo (getUserId ctx.authToken) now old)
        [getUserId ctx.authToken]
        (((s.teamMembers.filter fun tm =>
            [getUserId ctx.authToken].contains tm.userId).filter fun tm =>
              tm.teamId == teamId).map TeamMember.id) := by
  cases hex : existingGitHubRepo s teamId nameWithOwner with
  | none =>
    constructor
    · simp [addGitHubRepo, hmem, hprov, herr, hrepo, hadmin, maybeJoinRepos, hex]
    · simp [addGitHubRepo, hmem, hprov, herr, hrepo, hadmin, maybeJoinRepos, hex,
        List.filter_filter]
  | some old =>
    constructor
    · simp [addGitHubRepo, hmem, hprov, herr, hrepo, hadmin, maybeJoinRepos, hex]
    · simp [addGitHubRepo, hmem, hprov, herr, hrepo, hadmin, maybeJoinRepos, hex,
        List.filter_filter]

/-- When the resolver's lookup misses, no row matches the key. -/
theorem githubKeyCount_eq_zero_of_existing_none (s : Store)
    (teamId : String) (nameWithOwner : String)
    (h : existingGitHubRepo s teamId nameWithOwner = none) :
    githubKeyCount s teamId nameWithOwner = 0 := by
  unfold githubKeyCount
  rw [List.length_eq_zero]
  apply List.filter_eq_nil_iff.mpr
  intro x hx hk
  rw [Bool.and_eq_true] at hk
  obtain ⟨h1, h2⟩ := hk
  have hxf : x ∈ s.githubRepos.filter fun repo => repo.teamId == teamId :=
    List.mem_filter.mpr ⟨hx, h1⟩
  exact List.find?_eq_none.mp h x hxf h2

/-- When the resolver's lookup hits, the row is in the table and matches
the key. -/
theorem existingGitHubRepo_some (s : Store) (teamId : String)
    (nameWithOwner : String) (old : GitHubIntegration)
    (h : existingGitHubRepo s teamId nameWithOwner = some old) :
    old ∈ s.githubRepos ∧ (old.teamId == teamId) = true ∧
      (old.nameWithOwner == nameWithOwner) = true := by
  have hmem := List.mem_of_find?_eq_some h
  have hpred := List.find?_some h
  have hf := List.mem_filter.mp hmem
  exact ⟨hf.1, hf.2, hpred⟩

/-- When some row matches the key, the resolver's lookup hits. -/
theorem existingGitHubRepo_isSome_of_count_pos (s : Store)
    (teamId : String) (nameWithOwner : String)
    (h : 0 < githubKeyCount s teamId nameWithOwner) :
    ∃ old, existingGitHubRepo s teamId nameWithOwner = some old := by
  unfold githubKeyCount at h
  rw [List.length_pos] at h
  obtain ⟨x, hx⟩ := List.exists_mem_of_ne_nil _ h
  have hk := (List.mem_filter.mp hx).2
  have hxl := (List.mem_filter.mp hx).1
  rw [Bool.and_eq_true] at hk
  obtain ⟨h1, h2⟩ := hk
  have hxf : x ∈ s.githubRepos.filter fun repo => repo.teamId == teamId :=
    List.mem_filter.mpr ⟨hxl, h1⟩
  unfold existingGitHubRepo
  cases hfind : (s.githubRepos.filter fun repo => repo.teamId == teamId).find?
      fun repo => repo.nameWithOwner == nameWithOwner with
  | some o => exact ⟨o, rfl⟩
  | none => exact absurd h2 (List.find?_eq_none.mp hfind x hxf)

/-- The rehydrating by-id update never changes which rows match a
(teamId, nameWithOwner) key. -/
theorem keyCount_map_rehydrate (l : List GitHubIntegration) (u : String)
    (now : Nat) (rid : String) (teamId : String) (nameWithOwner : String) :
    ((l.map fun repo =>
        if repo.id == rid then rehydrateGitHubRepo u now repo else repo).filter
      fun repo =>
        repo.teamId == teamId && repo.nameWithOwner == nameWithOwner).length =
    (l.filter fun repo =>
      repo.teamId == teamId && repo.nameWithOwner == nameWithOwner).length := by
  apply length_filter_map_of_pred_eq
  intro x _
  cases hix : x.id == rid <;> simp [hix, rehydrateGitHubRepo]

/-- C6: AddGitHubRepo is idempotent on the (teamId, nameWithOwner) key.
If at most one integration row matches the key, a successful call leaves
exactly one matching row; a second successful call updates that row in
place — the table's length is unchanged, still exactly one row matches
the key, and every matching row is active. -/
theorem addGitHubRepo_idempotent
    (ctx : MutationContext) (now : Nat) (genId1 : String) (genId2 : String)
    (perms : GitHubPermissions) (w1 : Bool) (w2 : Bool)
    (teamId : String) (nameWithOwner : String) (s : Store)
    (prov : Provider) (info : GitHubRepoInfo)
    (hkey : githubKeyCount s teamId nameWithOwner ≤ 1)
    (hmem : isTeamMember ctx.authToken teamId = true)
    (hprov : (s.providers.filter fun p =>
        p.teamId == teamId && p.service == GITHUB && p.isActive).find?
        (fun p => p.userId == getUserId ctx.authToken) = some prov)
    (herr : perms.errors = false)
    (hrepo : perms.repository = some info)
    (hadmin : info.viewerCanAdminister = true) :
    githubKeyCount (addGitHubRepo ctx now genId1 perms w1 teamId nameWithOwner
      s).store teamId nameWithOwner = 1 ∧
    (addGitHubRepo ctx now genId2 perms w2 teamId nameWithOwner
      (addGitHubRepo ctx now genId1 perms w1 teamId nameWithOwner
        s).store).store.githubRepos.length =
      (addGitHubRepo ctx now genId1 perms w1 teamId nameWithOwner
        s).store.githubRepos.length ∧
    githubKeyCount (addGitHubRepo ctx now genId2 perms w2 teamId nameWithOwner
      (addGitHubRepo ctx now genId1 perms w1 teamId nameWithOwner
        s).store).store teamId nameWithOwner = 1 ∧
    ∀ repo ∈ (addGitHubRepo ctx now genId2 perms w2 teamId nameWithOwner
      (addGitHubRepo ctx now genId1 perms w1 teamId nameWithOwner
        s).store).store.githubRepos,
      (repo.teamId == teamId && repo.nameWithOwner == nameWithOwner) = true →
      repo.isActive = true := by
  obtain ⟨hstore1, houtcome1⟩ := addGitHubRepo_success ctx now genId1 perms w1
    teamId nameWithOwner s prov info hmem hprov herr hrepo hadmin
  set r1s := (addGitHubRepo ctx now genId1 perms w1 teamId nameWithOwner s).store
    with hr1s
  have hcount1 : githubKeyCount r1s teamId nameWithOwner = 1 := by
    rw [hstore1]
    cases hex : existingGitHubRepo s teamId nameWithOwner with
    | none =>
      have h0 := githubKeyCount_eq_zero_of_existing_none s teamId nameWithOwner hex
      unfold githubKeyCount at h0 ⊢
      simp only [hex]
      rw [List.filter_append, List.length_append, h0]
      simp [freshGitHubRepo]
    | some old =>
      obtain ⟨hold, ht, hn⟩ := existingGitHubRepo_some s teamId nameWithOwner old hex
      unfold githubKeyCount at hkey ⊢
      simp only [hex]
      rw [keyCount_map_rehydrate]
      have hpos : 0 < (s.githubRepos.filter fun repo =>
          repo.teamId == teamId && repo.nameWithOwner == nameWithOwner).length := by
        rw [List.length_pos]
        exact List.ne_nil_of_mem
          (List.mem_filter.mpr ⟨hold, by rw [Bool.and_eq_true]; exact ⟨ht, hn⟩⟩)
      exact Nat.le_antisymm hkey hpos
  have hprovs : r1s.providers = s.providers := by rw [hstore1]
  obtain ⟨old2, hex2⟩ := existingGitHubRepo_isSome_of_count_pos r1s teamId
    nameWithOwner (by rw [hcount1]; exact Nat.one_pos)
  have hprov2 : (r1s.providers.filter fun p =>
      p.teamId == teamId && p.service == GITHUB && p.isActive).find?
      (fun p => p.userId == getUserId ctx.authToken) = some prov := by
    rw [hprovs]; exact hprov
  obtain ⟨hstore2, houtcome2⟩ := addGitHubRepo_success ctx now genId2 perms w2
    teamId nameWithOwner r1s prov info hmem hprov2 herr hrepo hadmin
  obtain ⟨hold2, ht2, hn2⟩ := existingGitHubRepo_some r1s teamId nameWithOwner
    old2 hex2
  refine ⟨hcount1, ?_, ?_, ?_⟩
  · rw [hstore2]
    simp [hex2]
  · rw [hstore2]
    unfold githubKeyCount
    simp only [hex2]
    rw [keyCount_map_rehydrate]
    unfold githubKeyCount at hcount1
    exact hcount1
  · intro repo hmemrepo hkrepo
    rw [hstore2] at hmemrepo
    simp only [hex2] at hmemrepo
    obtain ⟨x, hxmem, hfx⟩ := List.mem_map.mp hmemrepo
    have hsingle : r1s.githubRepos.filter (fun repo =>
        repo.teamId == teamId && repo.nameWithOwner == nameWithOwner) = [old2] := by
      unfold githubKeyCount at hcount1
      obtain ⟨a, ha⟩ := List.length_eq_one.mp hcount1
      have : old2 ∈ r1s.githubRepos.filter fun repo =>
          repo.teamId == teamId && repo.nameWithOwner == nameWithOwner :=
        List.mem_filter.mpr ⟨hold2, by rw [Bool.and_eq_true]; exact ⟨ht2, hn2⟩⟩
      rw [ha] at this
      rw [ha, List.mem_singleton.mp this]
    have hkx : (x.teamId == teamId && x.nameWithOwner == nameWithOwner) = true := by
      rw [← hkrepo, ← hfx]
      cases hix : x.id == old2.id <;> simp [hix, rehydrateGitHubRepo]
    have hxold : x = old2 := by
      have : x ∈ r1s.githubRepos.filter fun repo =>
          repo.teamId == teamId && repo.nameWithOwner == nameWithOwner :=
        List.mem_filter.mpr ⟨hxmem, hkx⟩
      rw [hsingle] at this
      exact List.mem_singleton.mp this
    rw [← hfx, hxold]
    simp [rehydrateGitHubRepo]

/-- Witness for C6: adding acme/widget twice to the fixture team leaves a
single active integration row and a table of unchanged length. -/
theorem addGitHubRepo_idempotent_witness :
    githubKeyCount (addGitHubRepo ctxW 5 "g1" permsOk true "t1" "acme/widget"
      storeGH).store "t1" "acme/widget" = 1 ∧
    (addGitHubRepo ctxW 5 "g2" permsOk false "t1" "acme/widget"
      (addGitHubRepo ctxW 5 "g1" permsOk true "t1" "acme/widget"
        storeGH).store).store.githubRepos.length =
      (addGitHubRepo ctxW 5 "g1" permsOk true "t1" "acme/widget"
        storeGH).store.githubRepos.length ∧
    githubKeyCount (addGitHubRepo ctxW 5 "g2" permsOk false "t1" "acme/widget"
      (addGitHubRepo ctxW 5 "g1" permsOk true "t1" "acme/widget"
        storeGH).store).store "t1" "acme/widget" = 1 ∧
    ∀ repo ∈ (addGitHubRepo ctxW 5 "g2" permsOk false "t1" "acme/widget"
      (addGitHubRepo ctxW 5 "g1" permsOk true "t1" "acme/widget"
        storeGH).store).store.githubRepos,
      (repo.teamId == "t1" && repo.nameWithOwner == "acme/widget") = true →
      repo.isActive = true :=
  addGitHubRepo_idempotent ctxW 5 "g1" "g2" permsOk true false "t1" "acme/widget"
    storeGH providerW { viewerCanAdminister := true, databaseId := 42 }
    (by decide) (by decide) (by decide) (by decide) (by decide) (by decide)

/-- C7: the entire observable result of AddGitHubRepo — final store,
published events, webhook call list and returned payload — is the same
whether the fire-and-forget webhook creation succeeds or fails, and a
successful call leaves an active integration row for the key in the
store regardless of that outcome. -/
theorem addGitHubRepo_webhook_independent
    (ctx : MutationContext) (now : Nat) (genId : String)
    (perms : GitHubPermissions) (w1 : Bool) (w2 : Bool)
    (teamId : String) (nameWithOwner : String) (s : Store)
    (prov : Provider) (info : GitHubRepoInfo)
    (hmem : isTeamMember ctx.authToken teamId = true)
    (hprov : (s.providers.filter fun p =>
        p.teamId == teamId && p.service == GITHUB && p.isActive).find?
        (fun p => p.userId == getUserId ctx.authToken) = some prov)
    (herr : perms.errors = false)
    (hrepo : perms.repository = some info)
    (hadmin : info.viewerCanAdminister = true) :
    addGitHubRepo ctx now genId perms w1 teamId nameWithOwner s =
      addGitHubRepo ctx now genId perms w2 teamId nameWithOwner s ∧
    ∃ repo ∈ (addGitHubRepo ctx now genId perms w1 teamId nameWithOwner
        s).store.githubRepos,
      (repo.teamId == teamId && repo.nameWithOwner == nameWithOwner) = true ∧
      repo.isActive = true := by
  refine ⟨rfl, ?_⟩
  obtain ⟨hstore, houtcome⟩ := addGitHubRepo_success ctx now genId perms w1
    teamId nameWithOwner s prov info hmem hprov herr hrepo hadmin
  rw [hstore]
  cases hex : existingGitHubRepo s teamId nameWithOwner with
  | none =>
    refine ⟨freshGitHubRepo genId now (getUserId ctx.authToken) teamId
      nameWithOwner, ?_, ?_, rfl⟩
    · simp [hex]
    · simp [freshGitHubRepo]
  | some old =>
    obtain ⟨hold, ht, hn⟩ := existingGitHubRepo_some s teamId nameWithOwner old hex
    refine ⟨rehydrateGitHubRepo (getUserId ctx.authToken) now old, ?_, ?_, rfl⟩
    · simp only [hex]
      exact List.mem_map.mpr ⟨old, hold, by simp⟩
    · simp [rehydrateGitHubRepo, ht, hn]

/-- Witness for C7: at the fixture store, success and failure of the
webhook call produce identical results and an active integration row. -/
theorem addGitHubRepo_webhook_independent_witness :
    addGitHubRepo ctxW 5 "g1" permsOk true "t1" "acme/widget" storeGH =
      addGitHubRepo ctxW 5 "g1" permsOk false "t1" "acme/widget" storeGH ∧
    ∃ repo ∈ (addGitHubRepo ctxW 5 "g1" permsOk true "t1" "acme/widget"
        storeGH).store.githubRepos,
      (repo.teamId == "t1" && repo.nameWithOwner == "acme/widget") = true ∧
      repo.isActive = true :=
  addGitHubRepo_webhook_independent ctxW 5 "g1" permsOk true false "t1"
    "acme/widget" storeGH providerW { viewerCanAdminister := true, databaseId := 42 }
    (by decide) (by decide) (by decide) (by decide) (by decide)

/-- C10: when AddGitHubRepo rehydrates an existing integration row, the
returned row is the stored row with `adminUserId` overwritten by the
caller and `userIds` replaced by the singleton caller list, whatever user
ids were previously joined. -/
theorem addGitHubRepo_rehydrate_overwrites
    (ctx : MutationContext) (now : Nat) (genId : String)
    (perms : GitHubPermissions) (w : Bool)
    (teamId : String) (nameWithOwner : String) (s : Store)
    (prov : Provider) (info : GitHubRepoInfo) (old : GitHubIntegration)
    (hmem : isTeamMember ctx.authToken teamId = true)
    (hprov : (s.providers.filter fun p =>
        p.teamId == teamId && p.service == GITHUB && p.isActive).find?
        (fun p => p.userId == getUserId ctx.authToken) = some prov)
    (herr : perms.errors = false)
    (hrepo : perms.repository = some info)
    (hadmin : info.viewerCanAdminister = true)
    (hex : existingGitHubRepo s teamId nameWithOwner = some old) :
    (∃ uids tms,
      (addGitHubRepo ctx now genId perms w teamId nameWithOwner s).outcome =
        AddGitHubRepoOutcome.repoAdded
          (rehydrateGitHubRepo (getUserId ctx.authToken) now old) uids tms) ∧
    (rehydrateGitHubRepo (getUserId ctx.authToken) now old).adminUserId =
      getUserId ctx.authToken ∧
    (rehydrateGitHubRepo (getUserId ctx.authToken) now old).userIds =
      [getUserId ctx.authToken] := by
  obtain ⟨hstore, houtcome⟩ := addGitHubRepo_success ctx now genId perms w
    teamId nameWithOwner s prov info hmem hprov herr hrepo hadmin
  simp only [hex] at houtcome
  exact ⟨⟨_, _, houtcome⟩, rfl, rfl⟩

/-- Witness for C10: rehydrating the stored (t1, acme/widget) row
replaces its admin u9 and joined users [u9, u8] with the caller u1. -/
theorem addGitHubRepo_rehydrate_overwrites_witness :
    (∃ uids tms,
      (addGitHubRepo ctxW 5 "g1" permsOk true "t1" "acme/widget"
        storeGHexisting).outcome =
        AddGitHubRepoOutcome.repoAdded
          (rehydrateGitHubRepo (getUserId ctxW.authToken) 5 oldRepoW) uids tms) ∧
    (rehydrateGitHubRepo (getUserId ctxW.authToken) 5 oldRepoW).adminUserId =
      getUserId ctxW.authToken ∧
    (rehydrateGitHubRepo (getUserId ctxW.authToken) 5 oldRepoW).userIds =
      [getUserId ctxW.authToken] :=
  addGitHubRepo_rehydrate_overwrites ctxW 5 "g1" permsOk true "t1" "acme/widget"
    storeGHexisting providerW { viewerCanAdminister := true, databaseId := 42 }
    oldRepoW (by decide) (by decide) (by decide) (by decide) (by decide) (by decide)

/-- C8: re-inviting a previously removed team member reactivates the
existing TeamMember row in place — the table length is unchanged and the
row reappears with `isNotRemoved = true` — returns the reactivated
team-member id in the payload, and publishes a REJOIN_TEAM notification
rather than a fresh "added" one. -/
theorem inviteTeamMembers_reactivation
    (ctx : MutationContext) (genNotifId : Nat → String) (email : String)
    (teamId : String) (s : Store) (u : User) (tm : TeamMember)
    (hauth : isOrgLeaderOrTeamMember ctx.authToken teamId = true)
    (hu : s.users.find? (fun x => x.email == email) = some u)
    (htm : s.teamMembers.find? (fun x => x.userId == u.id && x.teamId == teamId)
      = some tm)
    (hrm : tm.isNotRemoved = false) :
    (inviteTeamMembersMutation ctx genNotifId [{ email := email }] teamId
      s).store.teamMembers.length = s.teamMembers.length ∧
    { tm with isNotRemoved := true } ∈
      (inviteTeamMembersMutation ctx genNotifId [{ email := email }] teamId
        s).store.teamMembers ∧
    (inviteTeamMembersMutation ctx genNotifId [{ email := email }] teamId
      s).outcome = ResolveOutcome.payload
        { reactivatedTeamMemberIds := [tm.id], results := ["reactivated"] } ∧
    ∃ e ∈ (inviteTeamMembersMutation ctx genNotifId [{ email := email }]
        teamId s).events,
      e.data = EventData.teamMemberAdded tm.id REJOIN_TEAM ADDED := by
  have htmmem := List.mem_of_find?_eq_some htm
  simp only [inviteTeamMembersMutation, hauth, if_true, safeInviteTeamMembers,
    List.enum, List.enumFrom, List.foldl_cons, List.foldl_nil, hu, htm, hrm,
    Bool.false_eq_true, if_false]
  refine ⟨by simp, ?_, ?_, ?_⟩
  · exact List.mem_map.mpr ⟨tm, htmmem, by simp⟩
  · rfl
  · exact ⟨_, List.mem_cons_self _ _, rfl⟩

/-- Witness for C8: re-inviting the removed member u2 flips the stored
row back to active, returns the id u2::t1, and publishes REJOIN_TEAM. -/
theorem inviteTeamMembers_reactivation_witness :
    (inviteTeamMembersMutation ctxW genIdW [{ email := "u2@example.com" }]
      "t1" storeInvite).store.teamMembers.length =
        storeInvite.teamMembers.length ∧
    { removedMemberW with isNotRemoved := true } ∈
      (inviteTeamMembersMutation ctxW genIdW [{ email := "u2@example.com" }]
        "t1" storeInvite).store.teamMembers ∧
    (inviteTeamMembersMutation ctxW genIdW [{ email := "u2@example.com" }]
      "t1" storeInvite).outcome = ResolveOutcome.payload
        { reactivatedTeamMemberIds := ["u2::t1"], results := ["reactivated"] } ∧
    ∃ e ∈ (inviteTeamMembersMutation ctxW genIdW [{ email := "u2@example.com" }]
        "t1" storeInvite).events,
      e.data = EventData.teamMemberAdded "u2::t1" REJOIN_TEAM ADDED :=
  inviteTeamMembers_reactivation ctxW genIdW "u2@example.com" "t1" storeInvite
    userW2 removedMemberW (by decide) (by decide) (by decide) (by decide)

end Action
